import Mathlib

/-!
# rawe: idle-aware periodic command runner

A shallow embedding of `src/main.c`.  The program keeps two timestamps
(`last_idle`, `last_resumed`), one timer per `timeout <ms> <command>` directive,
and decides at every timer expiry whether to skip, delay or run the command.

Modelling conventions.

* `time_t` values are whole seconds, modelled as `Int`.  `int` values are `Int`;
  the only arithmetic on them is `cmd->timeout / 1000`, C division truncating
  toward zero, which is `Int.tdiv`.
* `difftime(now, last_resumed)` and `d` are C doubles.  Both operands of the
  subtraction are whole numbers (`cmd->timeout / 1000` is evaluated in `int`
  before the conversion, and `difftime` of two whole-second readings is a whole
  number), so for clock readings below `2 ^ 53` every double operation in
  `handle_timeout` is exact and `d` is modelled as an `Int`.
* What a function does to the outside world is a list of `Event`s in program
  order.  What the outside world answers (the clock reading of `time(NULL)`,
  the pid returned by `fork`, whether `execvp` succeeded) is a parameter.
* A function that may end the process returns a `Run`, whose `ret` is `none`
  when control never comes back to the caller.
-/

namespace Rawe

/-! ## Constants of the platform -/

/-- The largest `int` (32-bit `int`). -/
def INT_MAX : Int := 2147483647

/-- The largest `unsigned long` (LP64: 64-bit `unsigned long`). -/
def ULONG_MAX : Nat := 18446744073709551615

def EXIT_SUCCESS : Int := 0

def EXIT_FAILURE : Int := 1

/-! ## Data model -/

/-- The `enum log_level`, constructors in declaration order. -/
inductive log_level where
  | LOG_DEBUG
  | LOG_INFO
  | LOG_ERROR
deriving DecidableEq, Repr

/-- The integer value of an enumerator. -/
def log_level.val : log_level → Nat
  | .LOG_DEBUG => 0
  | .LOG_INFO => 1
  | .LOG_ERROR => 2

/-- The messages the program logs: one constructor per format string, carrying
the arguments given to it. -/
inductive LogMsg where
  /-- The text is: Switch to inactive state -/
  | switch_inactive
  /-- The text is: Switch to active state -/
  | switch_active
  /-- The text is: System is idle, skip timeout command -/
  | system_idle
  /-- The text is: Delay command (cmd) by (d)s -/
  | delay_command (cmd : String) (d : Int)
  /-- The text is: Fork failed -/
  | fork_failed
  /-- The text is: Spawned process (line) -/
  | spawned (line : String)
  /-- The text is: Invalid timeout parameter (value): expected an integer between 0 and (max) -/
  | invalid_timeout (value : String) (max : Int)
  /-- The text is: Too few arguments for the timeout command -/
  | too_few_arguments
  /-- The text is: Register timeout command (cmd) to run every (timeout)ms -/
  | register_command (cmd : String) (timeout : Int)
deriving DecidableEq, Repr

/-- The calls by which the program acts on the outside world. -/
inductive Event where
  /-- One line written to stderr by `rawe_log`. -/
  | log (level : log_level) (msg : LogMsg)
  /-- A call of `fork()`. -/
  | fork
  /-- A call of `execvp(file, argv)`, made in the child. -/
  | execvp (file : String) (argv : List String)
  /-- A call of `exit(code)`. -/
  | exit (code : Int)
  /-- A call of `waitpid(pid, NULL, 0)`. -/
  | waitpid (pid : Int)
  /-- A call of `wl_event_source_timer_update(timer, ms_delay)`; `ms_delay` is
  the value of the argument expression. -/
  | timer_update (timer : Nat) (ms_delay : Int)
  /-- A call of `wl_event_loop_add_timer`, returning the handle `timer`. -/
  | add_timer (timer : Nat)
  /-- A call of `wl_display_disconnect`. -/
  | display_disconnect
  /-- A call of `wl_event_loop_destroy`. -/
  | event_loop_destroy
deriving DecidableEq, Repr

/-- The global `struct rawe_state`.  `display` and `event_loop` record whether
the pointer is non-NULL. -/
structure rawe_state where
  display : Bool
  event_loop : Bool
  last_idle : Int
  last_resumed : Int
deriving DecidableEq, Repr

/-- The `struct rawe_timeout_cmd`; `timer` identifies the task's own timer. -/
structure rawe_timeout_cmd where
  cmd : String
  timeout : Int
  timer : Nat
deriving DecidableEq, Repr

/-- The effects of a call and its return value; `ret = none` when the process
ended, or was replaced, before the call returned. -/
structure Run (α : Type) where
  trace : List Event
  ret : Option α
deriving DecidableEq, Repr

/-! ## Logging and termination -/

/-- The function `rawe_log`: a message below the current level is dropped. -/
def rawe_log (cur : log_level) (level : log_level) (msg : LogMsg) : List Event :=
  if level.val < cur.val then [] else [Event.log level msg]

/-- The function `rawe_terminate`: releases what is held, then `exit`. -/
def rawe_terminate (st : rawe_state) (exit_code : Int) : List Event :=
  (if st.display then [Event.display_disconnect] else []) ++
  (if st.event_loop then [Event.event_loop_destroy] else []) ++
  [Event.exit exit_code]

/-! ## Idle tracking -/

/-- The function `handle_idle`; `now` is the reading of `time(NULL)`. -/
def handle_idle (cur : log_level) (st : rawe_state) (now : Int) :
    List Event × rawe_state :=
  (rawe_log cur .LOG_DEBUG .switch_inactive, { st with last_idle := now })

/-- The function `handle_resumed`; `now` is the reading of `time(NULL)`. -/
def handle_resumed (cur : log_level) (st : rawe_state) (now : Int) :
    List Event × rawe_state :=
  (rawe_log cur .LOG_DEBUG .switch_active, { st with last_resumed := now })

/-- The state after the first two statements of `main`, `t0` being the reading
of `time(NULL)`: the event loop exists, the display is not yet connected. -/
def main_init (t0 : Int) : rawe_state :=
  { display := false, event_loop := true, last_idle := t0, last_resumed := t0 }

/-- The idle test made at the top of `handle_timeout`. -/
def is_idle (st : rawe_state) : Bool :=
  decide (st.last_idle > st.last_resumed)

/-! ## Running the command -/

/-- The function `cmd_exec`; `pid` is what `fork()` returned in the process
that runs this code (`0` in the child, negative on failure) and `exec_ok`
tells whether `execvp` succeeded in the child. -/
def cmd_exec (cur : log_level) (pid : Int) (exec_ok : Bool) (line : String) :
    Run Unit :=
  if pid = 0 then
    ⟨[Event.fork, Event.execvp "sh" ["sh", "-c", line]] ++
       (if exec_ok then [] else [Event.exit 1]), none⟩
  else if pid < 0 then
    ⟨Event.fork :: rawe_log cur .LOG_ERROR .fork_failed, some ()⟩
  else
    ⟨Event.fork :: (rawe_log cur .LOG_DEBUG (.spawned line) ++ [Event.waitpid pid]),
      some ()⟩

/-! ## The timer callback -/

/-- The value `d` of `handle_timeout`:
`cmd->timeout / 1000 - difftime(now, state.last_resumed)`. -/
def drift (st : rawe_state) (cmd : rawe_timeout_cmd) (now : Int) : Int :=
  Int.tdiv cmd.timeout 1000 - (now - st.last_resumed)

/-- The function `handle_timeout`.  `now` is the reading of `time(NULL)`,
taken only when the state is not idle; `pid` and `exec_ok` are passed on to
`cmd_exec`. -/
def handle_timeout (cur : log_level) (st : rawe_state) (cmd : rawe_timeout_cmd)
    (now : Int) (pid : Int) (exec_ok : Bool) : Run Int :=
  if st.last_idle > st.last_resumed then
    ⟨rawe_log cur .LOG_DEBUG .system_idle ++
       [Event.timer_update cmd.timer cmd.timeout], some 0⟩
  else
    let d := drift st cmd now
    if d > 1 then
      ⟨rawe_log cur .LOG_DEBUG (.delay_command cmd.cmd d) ++
         [Event.timer_update cmd.timer (d * 1000)], some 0⟩
    else
      let r := cmd_exec cur pid exec_ok cmd.cmd
      match r.ret with
      | none => ⟨r.trace, none⟩
      | some _ => ⟨r.trace ++ [Event.timer_update cmd.timer cmd.timeout], some 0⟩

/-! ## Observations on a trace -/

/-- The number of `fork()` calls in a trace: `cmd_exec` forks once, first
thing, and nothing else forks, so this counts the calls of `cmd_exec`. -/
def fork_count (tr : List Event) : Nat :=
  tr.count Event.fork

/-- The delays of the timer updates in a trace, in order. -/
def timer_delays : List Event → List Int
  | [] => []
  | Event.timer_update _ ms :: tr => ms :: timer_delays tr
  | _ :: tr => timer_delays tr

/-! ## Reading the interval from the command line -/

/-- The C-locale `isspace`: space, and the controls from tab to carriage return. -/
def isspace (c : Char) : Bool :=
  c.toNat = 32 || (9 ≤ c.toNat && c.toNat ≤ 13)

/-- The number written by a run of decimal digits, most significant first. -/
def digits_value (ds : List Char) : Nat :=
  ds.foldl (fun acc c => 10 * acc + (c.toNat - 48)) 0

/-- The library function `strtoul(nptr, &endptr, 10)` as the C standard and
glibc define it, on the characters before the terminating NUL: the returned
number and the characters `endptr` is left pointing at.  Leading white space is
skipped, one sign is accepted, the longest run of digits is read.  With no
digit at all the result is `0` and `endptr` is `nptr`.  A value above
`ULONG_MAX` gives `ULONG_MAX`; otherwise a minus sign negates the value in
`unsigned long` arithmetic. -/
def strtoul (nptr : List Char) : Nat × List Char :=
  let s1 := nptr.dropWhile isspace
  let neg := decide (s1.head? = some '-')
  let s2 := if s1.head? = some '-' ∨ s1.head? = some '+' then s1.tail else s1
  let ds := s2.takeWhile Char.isDigit
  let rest := s2.dropWhile Char.isDigit
  if ds = [] then (0, nptr)
  else
    let v := digits_value ds
    if v > ULONG_MAX then (ULONG_MAX, rest)
    else if neg then ((ULONG_MAX + 1 - v) % (ULONG_MAX + 1), rest)
    else (v, rest)

/-- The function `parse_timeout`.  The test `*endptr != 0` holds when
characters are left after what `strtoul` consumed. -/
def parse_timeout (cur : log_level) (st : rawe_state) (value : String) : Run Int :=
  let r := strtoul value.toList
  if r.2 ≠ [] ∨ (r.1 : Int) > INT_MAX then
    ⟨rawe_log cur .LOG_ERROR (.invalid_timeout value INT_MAX) ++
       rawe_terminate st EXIT_FAILURE, none⟩
  else
    ⟨[], some (r.1 : Int)⟩

/-- The function `parse_timeout_cmd` on `argv[0 .. argc)`; `timer` is the
handle `wl_event_loop_add_timer` returns.  The result is the returned count and
the task that was allocated. -/
def parse_timeout_cmd (cur : log_level) (st : rawe_state) (timer : Nat)
    (argv : List String) : Run (Int × rawe_timeout_cmd) :=
  match argv with
  | _ :: a1 :: a2 :: _ =>
    let r := parse_timeout cur st a1
    match r.ret with
    | none => ⟨r.trace, none⟩
    | some t =>
      ⟨r.trace ++ [Event.add_timer timer, Event.timer_update timer t] ++
         rawe_log cur .LOG_DEBUG (.register_command a2 t), some (3, ⟨a2, t, timer⟩)⟩
  | _ =>
    ⟨rawe_log cur .LOG_ERROR .too_few_arguments ++ rawe_terminate st EXIT_FAILURE,
      none⟩

/-! ## Sequences of idle notifications -/

/-- One notification from the compositor, with the reading of `time(NULL)`
taken by its handler. -/
inductive IdleCall where
  | idle (now : Int)
  | resumed (now : Int)
deriving DecidableEq, Repr

def IdleCall.reading : IdleCall → Int
  | .idle now => now
  | .resumed now => now

/-- The state after the handler of one notification. -/
def apply_call (cur : log_level) (st : rawe_state) : IdleCall → rawe_state
  | .idle now => (handle_idle cur st now).2
  | .resumed now => (handle_resumed cur st now).2

/-- The state after the handlers of a sequence of notifications, in order. -/
def run_calls (cur : log_level) (st : rawe_state) (calls : List IdleCall) :
    rawe_state :=
  calls.foldl (apply_call cur) st

/-- The clock never goes back: `t0` and then the readings of the calls, in
order, are non-decreasing. -/
def readings_nondecreasing (t0 : Int) (calls : List IdleCall) : Prop :=
  List.Chain (· ≤ ·) t0 (calls.map IdleCall.reading)

/-- Whether the sequence is non-empty and ends with `handle_idle`. -/
def last_call_is_idle (calls : List IdleCall) : Bool :=
  match calls.getLast? with
  | some (.idle _) => true
  | _ => false

/-- The reading of the most recent `handle_resumed` call of the sequence, or
`t0` when the sequence has none.  It is read off the calls alone. -/
def last_resume_reading (t0 : Int) (calls : List IdleCall) : Int :=
  ((calls.filterMap fun c =>
      match c with
      | .resumed now => some now
      | .idle _ => none).getLast?).getD t0

/-! ## The clock and the third scenario -/

/-- The reading of `time(NULL)` at `ms` milliseconds of wall-clock time: whole
seconds, the fraction dropped. -/
def time_at (ms : Int) : Int :=
  ms / 1000

/-- The third end-to-end scenario: startup at wall-clock time `T` ms, a task of
5000 ms, `handle_idle` 1000 ms later, `handle_resumed` 4500 ms after startup,
and the timer firing 5000 ms after startup. -/
def scenario_resume_before_firing (cur : log_level) (T : Int) (line : String)
    (timer : Nat) (pid : Int) (exec_ok : Bool) : Run Int :=
  let st0 := { main_init (time_at T) with display := true }
  let st1 := (handle_idle cur st0 (time_at (T + 1000))).2
  let st2 := (handle_resumed cur st1 (time_at (T + 4500))).2
  handle_timeout cur st2 ⟨line, 5000, timer⟩ (time_at (T + 5000)) pid exec_ok

/-! ## The drift as the specification words it -/

/-- The drift of the specification: the interval converted to seconds,
`timeout / 1000` as a fraction, minus the seconds elapsed since the resume. -/
def spec_drift (st : rawe_state) (cmd : rawe_timeout_cmd) (now : Int) : ℚ :=
  (cmd.timeout : ℚ) / 1000 - ((now : ℚ) - (st.last_resumed : ℚ))

/-! ## Lemmas on traces -/

theorem fork_count_append (a b : List Event) :
    fork_count (a ++ b) = fork_count a + fork_count b := by
  simp [fork_count]

theorem fork_count_timer_update (timer : Nat) (ms : Int) :
    fork_count [Event.timer_update timer ms] = 0 := by
  simp [fork_count]

theorem timer_delays_append (a b : List Event) :
    timer_delays (a ++ b) = timer_delays a ++ timer_delays b := by
  induction a with
  | nil => rfl
  | cons e a ih => cases e <;> simp [timer_delays, ih]

theorem fork_count_rawe_log (cur level : log_level) (msg : LogMsg) :
    fork_count (rawe_log cur level msg) = 0 := by
  unfold rawe_log
  split <;> simp [fork_count]

theorem timer_delays_rawe_log (cur level : log_level) (msg : LogMsg) :
    timer_delays (rawe_log cur level msg) = [] := by
  unfold rawe_log
  split <;> simp [timer_delays]

theorem exit_not_mem_rawe_log (cur level : log_level) (msg : LogMsg) (c : Int) :
    Event.exit c ∉ rawe_log cur level msg := by
  unfold rawe_log
  split <;> simp

/-- In the process that called `fork` (`pid ≠ 0`), `cmd_exec` returns. -/
theorem cmd_exec_ret_of_parent (cur : log_level) (pid : Int) (exec_ok : Bool)
    (line : String) (hpid : pid ≠ 0) :
    (cmd_exec cur pid exec_ok line).ret = some () := by
  unfold cmd_exec
  rw [if_neg hpid]
  split <;> rfl

/-- One call of `cmd_exec` is one call of `fork`, whatever `fork` returns. -/
theorem fork_count_cmd_exec (cur : log_level) (pid : Int) (exec_ok : Bool)
    (line : String) :
    fork_count (cmd_exec cur pid exec_ok line).trace = 1 := by
  unfold cmd_exec
  split
  · cases exec_ok <;> simp [fork_count]
  · split
    · have h := fork_count_rawe_log cur .LOG_ERROR .fork_failed
      simp only [fork_count] at h ⊢
      simp [h]
    · have h := fork_count_rawe_log cur .LOG_DEBUG (.spawned line)
      simp only [fork_count] at h ⊢
      simp [h]

/-- The function `cmd_exec` never touches a timer. -/
theorem timer_delays_cmd_exec (cur : log_level) (pid : Int) (exec_ok : Bool)
    (line : String) :
    timer_delays (cmd_exec cur pid exec_ok line).trace = [] := by
  unfold cmd_exec
  split
  · cases exec_ok <;> simp [timer_delays]
  · split
    · simp [timer_delays, timer_delays_rawe_log]
    · simp [timer_delays, timer_delays_append, timer_delays_rawe_log]

/-- In the process that called `fork`, `cmd_exec` never calls `exit`. -/
theorem exit_not_mem_cmd_exec (cur : log_level) (pid : Int) (exec_ok : Bool)
    (line : String) (hpid : pid ≠ 0) (c : Int) :
    Event.exit c ∉ (cmd_exec cur pid exec_ok line).trace := by
  unfold cmd_exec
  rw [if_neg hpid]
  split
  · simp [exit_not_mem_rawe_log]
  · simp [exit_not_mem_rawe_log]

/-- The execute branch of `handle_timeout`, in the process that called `fork`. -/
theorem handle_timeout_execute (cur : log_level) (st : rawe_state)
    (cmd : rawe_timeout_cmd) (now pid : Int) (exec_ok : Bool)
    (hidle : ¬ st.last_idle > st.last_resumed) (hd : ¬ drift st cmd now > 1)
    (hpid : pid ≠ 0) :
    handle_timeout cur st cmd now pid exec_ok =
      ⟨(cmd_exec cur pid exec_ok cmd.cmd).trace ++
         [Event.timer_update cmd.timer cmd.timeout], some 0⟩ := by
  unfold handle_timeout
  rw [if_neg hidle]
  simp only [if_neg hd, cmd_exec_ret_of_parent cur pid exec_ok cmd.cmd hpid]

/-- The delay branch of `handle_timeout`. -/
theorem handle_timeout_delay (cur : log_level) (st : rawe_state)
    (cmd : rawe_timeout_cmd) (now pid : Int) (exec_ok : Bool)
    (hidle : ¬ st.last_idle > st.last_resumed) (hd : drift st cmd now > 1) :
    handle_timeout cur st cmd now pid exec_ok =
      ⟨rawe_log cur .LOG_DEBUG (.delay_command cmd.cmd (drift st cmd now)) ++
         [Event.timer_update cmd.timer (drift st cmd now * 1000)], some 0⟩ := by
  unfold handle_timeout
  rw [if_neg hidle]
  simp only [if_pos hd]

/-- The idle branch of `handle_timeout`. -/
theorem handle_timeout_skip (cur : log_level) (st : rawe_state)
    (cmd : rawe_timeout_cmd) (now pid : Int) (exec_ok : Bool)
    (hidle : st.last_idle > st.last_resumed) :
    handle_timeout cur st cmd now pid exec_ok =
      ⟨rawe_log cur .LOG_DEBUG .system_idle ++
         [Event.timer_update cmd.timer cmd.timeout], some 0⟩ := by
  unfold handle_timeout
  rw [if_pos hidle]

theorem rawe_log_error (cur : log_level) (msg : LogMsg) :
    rawe_log cur .LOG_ERROR msg = [Event.log .LOG_ERROR msg] := by
  cases cur <;> rfl

theorem rawe_log_debug (cur : log_level) (msg : LogMsg) :
    rawe_log cur .LOG_DEBUG msg =
      if cur = .LOG_DEBUG then [Event.log .LOG_DEBUG msg] else [] := by
  cases cur <;> rfl

/-- The execute branch of `handle_timeout`, spelled out for each answer of
`fork`: failure, success in the calling process, and the child. -/
theorem handle_timeout_execute_cases (cur : log_level) (st : rawe_state)
    (cmd : rawe_timeout_cmd) (now pid : Int) (exec_ok : Bool)
    (hidle : ¬ st.last_idle > st.last_resumed) (hd : ¬ drift st cmd now > 1) :
    (pid < 0 → handle_timeout cur st cmd now pid exec_ok =
        ⟨[Event.fork, Event.log .LOG_ERROR .fork_failed,
          Event.timer_update cmd.timer cmd.timeout], some 0⟩) ∧
    (0 < pid → handle_timeout cur st cmd now pid exec_ok =
        ⟨Event.fork ::
          ((if cur = .LOG_DEBUG then [Event.log .LOG_DEBUG (.spawned cmd.cmd)] else []) ++
            [Event.waitpid pid, Event.timer_update cmd.timer cmd.timeout]), some 0⟩) ∧
    (pid = 0 → handle_timeout cur st cmd now pid exec_ok =
        ⟨[Event.fork, Event.execvp "sh" ["sh", "-c", cmd.cmd]] ++
          (if exec_ok then [] else [Event.exit 1]), none⟩) := by
  unfold handle_timeout
  rw [if_neg hidle]
  simp only [if_neg hd]
  refine ⟨fun h => ?_, fun h => ?_, fun h => ?_⟩
  · have h0 : pid ≠ 0 := by omega
    simp [cmd_exec, h0, h, rawe_log_error]
  · have h0 : pid ≠ 0 := by omega
    have h1 : ¬ pid < 0 := by omega
    simp [cmd_exec, h0, h1, rawe_log_debug]
  · simp [cmd_exec, h]

/-- What every run of the execute branch has in common: one `fork`, and in the
calling process one timer update with the full interval, the return value 0
and no `exit`. -/
theorem handle_timeout_execute_summary (cur : log_level) (st : rawe_state)
    (cmd : rawe_timeout_cmd) (now pid : Int) (exec_ok : Bool)
    (hidle : ¬ st.last_idle > st.last_resumed) (hd : ¬ drift st cmd now > 1) :
    fork_count (handle_timeout cur st cmd now pid exec_ok).trace = 1 ∧
      (pid ≠ 0 →
        timer_delays (handle_timeout cur st cmd now pid exec_ok).trace = [cmd.timeout] ∧
        (handle_timeout cur st cmd now pid exec_ok).ret = some 0 ∧
        ∀ c, Event.exit c ∉ (handle_timeout cur st cmd now pid exec_ok).trace) := by
  constructor
  · by_cases hpid : pid = 0
    · unfold handle_timeout
      rw [if_neg hidle]
      simp only [if_neg hd]
      have hr : (cmd_exec cur pid exec_ok cmd.cmd).ret = none := by
        simp [cmd_exec, hpid]
      rw [hr]
      exact fork_count_cmd_exec cur pid exec_ok cmd.cmd
    · rw [handle_timeout_execute cur st cmd now pid exec_ok hidle hd hpid]
      rw [fork_count_append, fork_count_cmd_exec, fork_count_timer_update]
  · intro hpid
    rw [handle_timeout_execute cur st cmd now pid exec_ok hidle hd hpid]
    refine ⟨?_, rfl, ?_⟩
    · simp [timer_delays_append, timer_delays_cmd_exec, timer_delays]
    · intro c
      simp [exit_not_mem_cmd_exec cur pid exec_ok cmd.cmd hpid c]

/-! ## The three branches of the timer callback -/

/-- Claim C1: in every state with `last_idle > last_resumed`, for every task,
every clock reading and every answer of `fork`, one call of `handle_timeout`
never calls `cmd_exec`, makes exactly one timer update, on the task's own timer
and with the full interval `timeout` as its delay, and returns 0. -/
theorem handle_timeout_idle_rearms_full_interval (cur : log_level)
    (st : rawe_state) (cmd : rawe_timeout_cmd) (now pid : Int) (exec_ok : Bool)
    (hidle : st.last_idle > st.last_resumed) :
    (handle_timeout cur st cmd now pid exec_ok).trace =
        rawe_log cur .LOG_DEBUG .system_idle ++
          [Event.timer_update cmd.timer cmd.timeout] ∧
      fork_count (handle_timeout cur st cmd now pid exec_ok).trace = 0 ∧
      timer_delays (handle_timeout cur st cmd now pid exec_ok).trace = [cmd.timeout] ∧
      (handle_timeout cur st cmd now pid exec_ok).ret = some 0 := by
  rw [handle_timeout_skip cur st cmd now pid exec_ok hidle]
  refine ⟨rfl, ?_, ?_, rfl⟩
  · rw [fork_count_append, fork_count_rawe_log, fork_count_timer_update]
  · simp [timer_delays_append, timer_delays_rawe_log, timer_delays]

/-- Claim C1 at an idle state (idle at 7, resumed at 3) and a task of 5000 ms. -/
theorem handle_timeout_idle_rearms_full_interval_witness :
    (handle_timeout .LOG_INFO ⟨true, true, 7, 3⟩ ⟨"echo hi", 5000, 0⟩ 9 41 true).trace =
        rawe_log .LOG_INFO .LOG_DEBUG .system_idle ++ [Event.timer_update 0 5000] ∧
      fork_count
        (handle_timeout .LOG_INFO ⟨true, true, 7, 3⟩ ⟨"echo hi", 5000, 0⟩ 9 41 true).trace = 0 ∧
      timer_delays
        (handle_timeout .LOG_INFO ⟨true, true, 7, 3⟩ ⟨"echo hi", 5000, 0⟩ 9 41 true).trace =
          [5000] ∧
      (handle_timeout .LOG_INFO ⟨true, true, 7, 3⟩ ⟨"echo hi", 5000, 0⟩ 9 41 true).ret = some 0 :=
  handle_timeout_idle_rearms_full_interval .LOG_INFO ⟨true, true, 7, 3⟩
    ⟨"echo hi", 5000, 0⟩ 9 41 true (by decide)

/-- Claim C2: in every state that is not idle and in which the drift
`timeout / 1000 - (now - last_resumed)` is at most 1, `handle_timeout` calls
`cmd_exec` exactly once, on the command of the task.  When `fork` fails
(`pid < 0`) the only effects are the `fork`, the error line `Fork failed` and
one timer update with the full interval `timeout`; when it succeeds
(`0 < pid`) they are the `fork`, the debug line, `waitpid` on the child and the
same timer update; both return 0 and neither calls `exit`.  The child
(`pid = 0`) executes `sh -c` on the command and never returns. -/
theorem handle_timeout_execute_rearms_full_interval (cur : log_level)
    (st : rawe_state) (cmd : rawe_timeout_cmd) (now pid : Int) (exec_ok : Bool)
    (hidle : st.last_idle ≤ st.last_resumed) (hd : drift st cmd now ≤ 1) :
    ((pid < 0 → handle_timeout cur st cmd now pid exec_ok =
        ⟨[Event.fork, Event.log .LOG_ERROR .fork_failed,
          Event.timer_update cmd.timer cmd.timeout], some 0⟩) ∧
      (0 < pid → handle_timeout cur st cmd now pid exec_ok =
        ⟨Event.fork ::
          ((if cur = .LOG_DEBUG then [Event.log .LOG_DEBUG (.spawned cmd.cmd)] else []) ++
            [Event.waitpid pid, Event.timer_update cmd.timer cmd.timeout]), some 0⟩) ∧
      (pid = 0 → handle_timeout cur st cmd now pid exec_ok =
        ⟨[Event.fork, Event.execvp "sh" ["sh", "-c", cmd.cmd]] ++
          (if exec_ok then [] else [Event.exit 1]), none⟩)) ∧
      fork_count (handle_timeout cur st cmd now pid exec_ok).trace = 1 ∧
      (pid ≠ 0 →
        timer_delays (handle_timeout cur st cmd now pid exec_ok).trace = [cmd.timeout] ∧
        (handle_timeout cur st cmd now pid exec_ok).ret = some 0 ∧
        ∀ c, Event.exit c ∉ (handle_timeout cur st cmd now pid exec_ok).trace) :=
  ⟨handle_timeout_execute_cases cur st cmd now pid exec_ok (not_lt.mpr hidle)
      (not_lt.mpr hd),
    handle_timeout_execute_summary cur st cmd now pid exec_ok (not_lt.mpr hidle)
      (not_lt.mpr hd)⟩

/-- Claim C2 at a task of 5000 ms resumed at 7 and firing at 12, for a failed
fork, a successful fork and the child of a fork whose `execvp` fails. -/
theorem handle_timeout_execute_rearms_full_interval_witness :
    handle_timeout .LOG_DEBUG ⟨true, true, 3, 7⟩ ⟨"echo hi", 5000, 0⟩ 12 (-1) true =
        ⟨[Event.fork, Event.log .LOG_ERROR .fork_failed, Event.timer_update 0 5000],
          some 0⟩ ∧
      handle_timeout .LOG_DEBUG ⟨true, true, 3, 7⟩ ⟨"echo hi", 5000, 0⟩ 12 41 true =
        ⟨[Event.fork, Event.log .LOG_DEBUG (.spawned "echo hi"), Event.waitpid 41,
          Event.timer_update 0 5000], some 0⟩ ∧
      handle_timeout .LOG_DEBUG ⟨true, true, 3, 7⟩ ⟨"echo hi", 5000, 0⟩ 12 0 false =
        ⟨[Event.fork, Event.execvp "sh" ["sh", "-c", "echo hi"], Event.exit 1], none⟩ :=
  ⟨(handle_timeout_execute_rearms_full_interval .LOG_DEBUG ⟨true, true, 3, 7⟩
      ⟨"echo hi", 5000, 0⟩ 12 (-1) true (by decide) (by decide)).1.1 (by decide),
    (handle_timeout_execute_rearms_full_interval .LOG_DEBUG ⟨true, true, 3, 7⟩
      ⟨"echo hi", 5000, 0⟩ 12 41 true (by decide) (by decide)).1.2.1 (by decide),
    (handle_timeout_execute_rearms_full_interval .LOG_DEBUG ⟨true, true, 3, 7⟩
      ⟨"echo hi", 5000, 0⟩ 12 0 false (by decide) (by decide)).1.2.2 rfl⟩

/-- Claim C3, as worded, fails: with an interval of 2500 ms and a resume one
second before the firing, the interval converted to seconds is 2.5 and the
drift of the specification is 1.5 > 1.0, so the claim has the command skipped
and the timer re-armed for 1500 ms; the code computes `2500 / 1000 = 2`, a
drift of 1, runs the command and re-arms the timer for the full 2500 ms. -/
theorem spec_drift_delay_counterexample :
    ¬ ((⟨true, true, 0, 0⟩ : rawe_state).last_idle >
        (⟨true, true, 0, 0⟩ : rawe_state).last_resumed) ∧
      spec_drift ⟨true, true, 0, 0⟩ ⟨"echo hi", 2500, 0⟩ 1 > 1 ∧
      spec_drift ⟨true, true, 0, 0⟩ ⟨"echo hi", 2500, 0⟩ 1 * 1000 = 1500 ∧
      fork_count
        (handle_timeout .LOG_INFO ⟨true, true, 0, 0⟩ ⟨"echo hi", 2500, 0⟩ 1 41 true).trace =
          1 ∧
      timer_delays
        (handle_timeout .LOG_INFO ⟨true, true, 0, 0⟩ ⟨"echo hi", 2500, 0⟩ 1 41 true).trace =
          [2500] := by
  refine ⟨by decide, ?_, ?_, by decide, by decide⟩
  · norm_num [spec_drift]
  · norm_num [spec_drift]

/-- Claim C3, amended: in every state that is not idle and in which the drift
`d = timeout / 1000 - (now - last_resumed)`, the interval being converted to
whole seconds by the truncating division of C, is greater than 1,
`handle_timeout` never calls `cmd_exec`, makes exactly one timer update, with
delay `d * 1000` ms, and returns 0. -/
theorem handle_timeout_delay_rearms_drift (cur : log_level)
    (st : rawe_state) (cmd : rawe_timeout_cmd) (now pid : Int) (exec_ok : Bool)
    (hidle : st.last_idle ≤ st.last_resumed)
    (hd : Int.tdiv cmd.timeout 1000 - (now - st.last_resumed) > 1) :
    (handle_timeout cur st cmd now pid exec_ok).trace =
        rawe_log cur .LOG_DEBUG
            (.delay_command cmd.cmd (Int.tdiv cmd.timeout 1000 - (now - st.last_resumed))) ++
          [Event.timer_update cmd.timer
            ((Int.tdiv cmd.timeout 1000 - (now - st.last_resumed)) * 1000)] ∧
      fork_count (handle_timeout cur st cmd now pid exec_ok).trace = 0 ∧
      timer_delays (handle_timeout cur st cmd now pid exec_ok).trace =
        [(Int.tdiv cmd.timeout 1000 - (now - st.last_resumed)) * 1000] ∧
      (handle_timeout cur st cmd now pid exec_ok).ret = some 0 := by
  rw [handle_timeout_delay cur st cmd now pid exec_ok (not_lt.mpr hidle) hd]
  refine ⟨rfl, ?_, ?_, rfl⟩
  · rw [fork_count_append, fork_count_rawe_log, fork_count_timer_update]
  · simp [timer_delays_append, timer_delays_rawe_log, timer_delays, drift]

/-- Claim C3, amended, at a resume at 4 and a firing at 5 with a task of 5000 ms: drift 4. -/
theorem handle_timeout_delay_rearms_drift_witness :
    (handle_timeout .LOG_INFO ⟨true, true, 1, 4⟩ ⟨"echo hi", 5000, 0⟩ 5 41 true).trace =
        rawe_log .LOG_INFO .LOG_DEBUG
            (.delay_command "echo hi" (Int.tdiv 5000 1000 - (5 - 4))) ++
          [Event.timer_update 0 ((Int.tdiv 5000 1000 - (5 - 4)) * 1000)] ∧
      fork_count
        (handle_timeout .LOG_INFO ⟨true, true, 1, 4⟩ ⟨"echo hi", 5000, 0⟩ 5 41 true).trace = 0 ∧
      timer_delays
        (handle_timeout .LOG_INFO ⟨true, true, 1, 4⟩ ⟨"echo hi", 5000, 0⟩ 5 41 true).trace =
          [(Int.tdiv 5000 1000 - (5 - 4)) * 1000] ∧
      (handle_timeout .LOG_INFO ⟨true, true, 1, 4⟩ ⟨"echo hi", 5000, 0⟩ 5 41 true).ret = some 0 :=
  handle_timeout_delay_rearms_drift .LOG_INFO ⟨true, true, 1, 4⟩
    ⟨"echo hi", 5000, 0⟩ 5 41 true (by decide) (by decide)

/-- Claim C4: when no notification has arrived since startup, so that
`last_idle = last_resumed = t0`, and the firing reads a clock with
`now - t0 ≥ I / 1000`, `handle_timeout` executes the command and re-arms the
timer for exactly `I` ms: it forks once; the child executes `sh -c` on the
command; the calling process waits for the child (or, the fork having failed,
logs `Fork failed`) and then makes one timer update with delay `I`, returning
0. -/
theorem first_firing_executes_and_rearms (cur : log_level) (st : rawe_state)
    (cmd : rawe_timeout_cmd) (t0 now pid : Int) (exec_ok : Bool)
    (hli : st.last_idle = t0) (hlr : st.last_resumed = t0)
    (hnow : now - t0 ≥ Int.tdiv cmd.timeout 1000) :
    ((pid < 0 → handle_timeout cur st cmd now pid exec_ok =
        ⟨[Event.fork, Event.log .LOG_ERROR .fork_failed,
          Event.timer_update cmd.timer cmd.timeout], some 0⟩) ∧
      (0 < pid → handle_timeout cur st cmd now pid exec_ok =
        ⟨Event.fork ::
          ((if cur = .LOG_DEBUG then [Event.log .LOG_DEBUG (.spawned cmd.cmd)] else []) ++
            [Event.waitpid pid, Event.timer_update cmd.timer cmd.timeout]), some 0⟩) ∧
      (pid = 0 → handle_timeout cur st cmd now pid exec_ok =
        ⟨[Event.fork, Event.execvp "sh" ["sh", "-c", cmd.cmd]] ++
          (if exec_ok then [] else [Event.exit 1]), none⟩)) ∧
      fork_count (handle_timeout cur st cmd now pid exec_ok).trace = 1 ∧
      (pid ≠ 0 →
        timer_delays (handle_timeout cur st cmd now pid exec_ok).trace = [cmd.timeout]) := by
  have hidle : ¬ st.last_idle > st.last_resumed := by omega
  have hd : ¬ drift st cmd now > 1 := by
    unfold drift
    omega
  have hs := handle_timeout_execute_summary cur st cmd now pid exec_ok hidle hd
  exact ⟨handle_timeout_execute_cases cur st cmd now pid exec_ok hidle hd, hs.1,
    fun hpid => (hs.2 hpid).1⟩

/-- Claim C4 at a startup at 100, a task of 5000 ms and a first firing at 105,
for a failed fork, a successful fork and the child of a fork whose `execvp`
fails. -/
theorem first_firing_executes_and_rearms_witness :
    handle_timeout .LOG_DEBUG ⟨true, true, 100, 100⟩ ⟨"echo hi", 5000, 0⟩ 105 (-1) true =
        ⟨[Event.fork, Event.log .LOG_ERROR .fork_failed, Event.timer_update 0 5000],
          some 0⟩ ∧
      handle_timeout .LOG_DEBUG ⟨true, true, 100, 100⟩ ⟨"echo hi", 5000, 0⟩ 105 41 true =
        ⟨[Event.fork, Event.log .LOG_DEBUG (.spawned "echo hi"), Event.waitpid 41,
          Event.timer_update 0 5000], some 0⟩ ∧
      handle_timeout .LOG_DEBUG ⟨true, true, 100, 100⟩ ⟨"echo hi", 5000, 0⟩ 105 0 false =
        ⟨[Event.fork, Event.execvp "sh" ["sh", "-c", "echo hi"], Event.exit 1], none⟩ :=
  ⟨(first_firing_executes_and_rearms .LOG_DEBUG ⟨true, true, 100, 100⟩
      ⟨"echo hi", 5000, 0⟩ 100 105 (-1) true rfl rfl (by decide)).1.1 (by decide),
    (first_firing_executes_and_rearms .LOG_DEBUG ⟨true, true, 100, 100⟩
      ⟨"echo hi", 5000, 0⟩ 100 105 41 true rfl rfl (by decide)).1.2.1 (by decide),
    (first_firing_executes_and_rearms .LOG_DEBUG ⟨true, true, 100, 100⟩
      ⟨"echo hi", 5000, 0⟩ 100 105 0 false rfl rfl (by decide)).1.2.2 rfl⟩

/-- Claim C8: when a firing at clock reading `now1`, in a state that is not
idle, takes the delay branch with drift `d > 1` (no `cmd_exec`, one timer
update of `d * 1000` ms) and the state is unchanged at the next firing, whose
clock reading is `now2 ≥ now1 + d`, then `handle_timeout` at that next firing
does not delay again.  It forks once; the child executes `sh -c` on the
command; the calling process waits for the child (or, the fork having failed,
logs `Fork failed`) and then makes one timer update with the full interval,
returning 0. -/
theorem delay_not_repeated (cur : log_level) (st : rawe_state)
    (cmd : rawe_timeout_cmd) (now1 now2 pid1 pid2 : Int) (ok1 ok2 : Bool)
    (hidle : st.last_idle ≤ st.last_resumed) (hd : drift st cmd now1 > 1)
    (hnext : now2 ≥ now1 + drift st cmd now1) :
    (handle_timeout cur st cmd now1 pid1 ok1 =
        ⟨(if cur = .LOG_DEBUG then
            [Event.log .LOG_DEBUG (.delay_command cmd.cmd (drift st cmd now1))]
          else []) ++
          [Event.timer_update cmd.timer (drift st cmd now1 * 1000)], some 0⟩ ∧
      fork_count (handle_timeout cur st cmd now1 pid1 ok1).trace = 0 ∧
      timer_delays (handle_timeout cur st cmd now1 pid1 ok1).trace =
        [drift st cmd now1 * 1000]) ∧
    ((pid2 < 0 → handle_timeout cur st cmd now2 pid2 ok2 =
        ⟨[Event.fork, Event.log .LOG_ERROR .fork_failed,
          Event.timer_update cmd.timer cmd.timeout], some 0⟩) ∧
      (0 < pid2 → handle_timeout cur st cmd now2 pid2 ok2 =
        ⟨Event.fork ::
          ((if cur = .LOG_DEBUG then [Event.log .LOG_DEBUG (.spawned cmd.cmd)] else []) ++
            [Event.waitpid pid2, Event.timer_update cmd.timer cmd.timeout]), some 0⟩) ∧
      (pid2 = 0 → handle_timeout cur st cmd now2 pid2 ok2 =
        ⟨[Event.fork, Event.execvp "sh" ["sh", "-c", cmd.cmd]] ++
          (if ok2 then [] else [Event.exit 1]), none⟩)) ∧
      fork_count (handle_timeout cur st cmd now2 pid2 ok2).trace = 1 ∧
      (pid2 ≠ 0 →
        timer_delays (handle_timeout cur st cmd now2 pid2 ok2).trace = [cmd.timeout]) := by
  have hd2 : ¬ drift st cmd now2 > 1 := by
    unfold drift at hd hnext ⊢
    omega
  have hs := handle_timeout_execute_summary cur st cmd now2 pid2 ok2 (not_lt.mpr hidle) hd2
  refine ⟨⟨?_, ?_, ?_⟩, handle_timeout_execute_cases cur st cmd now2 pid2 ok2
    (not_lt.mpr hidle) hd2, hs.1, fun hpid => (hs.2 hpid).1⟩
  · rw [handle_timeout_delay cur st cmd now1 pid1 ok1 (not_lt.mpr hidle) hd, rawe_log_debug]
  · rw [handle_timeout_delay cur st cmd now1 pid1 ok1 (not_lt.mpr hidle) hd,
      fork_count_append, fork_count_rawe_log, fork_count_timer_update]
  · rw [handle_timeout_delay cur st cmd now1 pid1 ok1 (not_lt.mpr hidle) hd]
    simp [timer_delays_append, timer_delays_rawe_log, timer_delays]

/-- Claim C8 at a task of 5000 ms resumed at 4: the firing at 5 delays by 4 s;
the firing at 9 runs the command, shown for a failed fork, a successful fork
and the child of a fork whose `execvp` fails. -/
theorem delay_not_repeated_witness :
    handle_timeout .LOG_DEBUG ⟨true, true, 1, 4⟩ ⟨"echo hi", 5000, 0⟩ 5 41 true =
        ⟨[Event.log .LOG_DEBUG (.delay_command "echo hi" 4), Event.timer_update 0 4000],
          some 0⟩ ∧
    handle_timeout .LOG_DEBUG ⟨true, true, 1, 4⟩ ⟨"echo hi", 5000, 0⟩ 9 (-1) true =
        ⟨[Event.fork, Event.log .LOG_ERROR .fork_failed, Event.timer_update 0 5000],
          some 0⟩ ∧
      handle_timeout .LOG_DEBUG ⟨true, true, 1, 4⟩ ⟨"echo hi", 5000, 0⟩ 9 41 true =
        ⟨[Event.fork, Event.log .LOG_DEBUG (.spawned "echo hi"), Event.waitpid 41,
          Event.timer_update 0 5000], some 0⟩ ∧
      handle_timeout .LOG_DEBUG ⟨true, true, 1, 4⟩ ⟨"echo hi", 5000, 0⟩ 9 0 false =
        ⟨[Event.fork, Event.execvp "sh" ["sh", "-c", "echo hi"], Event.exit 1], none⟩ :=
  ⟨(delay_not_repeated .LOG_DEBUG ⟨true, true, 1, 4⟩ ⟨"echo hi", 5000, 0⟩ 5 9 41 (-1)
      true true (by decide) (by decide) (by decide)).1.1,
    (delay_not_repeated .LOG_DEBUG ⟨true, true, 1, 4⟩ ⟨"echo hi", 5000, 0⟩ 5 9 41 (-1)
      true true (by decide) (by decide) (by decide)).2.1.1 (by decide),
    (delay_not_repeated .LOG_DEBUG ⟨true, true, 1, 4⟩ ⟨"echo hi", 5000, 0⟩ 5 9 41 41
      true true (by decide) (by decide) (by decide)).2.1.2.1 (by decide),
    (delay_not_repeated .LOG_DEBUG ⟨true, true, 1, 4⟩ ⟨"echo hi", 5000, 0⟩ 5 9 41 0
      true false (by decide) (by decide) (by decide)).2.1.2.2 rfl⟩

/-- Claim C9: for an interval with `0 ≤ timeout < 1000` the seconds used by
the drift are `timeout / 1000 = 0`, so the drift is that of an interval of
zero; in every state that is not idle and every clock reading
`now ≥ last_resumed` the drift is at most 0, the delay branch is not taken and
the command is executed: `handle_timeout` forks once; the child executes
`sh -c` on the command; the calling process waits for the child (or, the fork
having failed, logs `Fork failed`) and then makes one timer update with delay
`timeout`, returning 0. -/
theorem subsecond_interval_always_executes (cur : log_level) (st : rawe_state)
    (cmd : rawe_timeout_cmd) (now pid : Int) (exec_ok : Bool)
    (h0 : 0 ≤ cmd.timeout) (h1 : cmd.timeout < 1000)
    (hidle : st.last_idle ≤ st.last_resumed) (hnow : now ≥ st.last_resumed) :
    (Int.tdiv cmd.timeout 1000 = 0 ∧
      drift st cmd now ≤ 0 ∧
      drift st cmd now = drift st { cmd with timeout := 0 } now) ∧
    ((pid < 0 → handle_timeout cur st cmd now pid exec_ok =
        ⟨[Event.fork, Event.log .LOG_ERROR .fork_failed,
          Event.timer_update cmd.timer cmd.timeout], some 0⟩) ∧
      (0 < pid → handle_timeout cur st cmd now pid exec_ok =
        ⟨Event.fork ::
          ((if cur = .LOG_DEBUG then [Event.log .LOG_DEBUG (.spawned cmd.cmd)] else []) ++
            [Event.waitpid pid, Event.timer_update cmd.timer cmd.timeout]), some 0⟩) ∧
      (pid = 0 → handle_timeout cur st cmd now pid exec_ok =
        ⟨[Event.fork, Event.execvp "sh" ["sh", "-c", cmd.cmd]] ++
          (if exec_ok then [] else [Event.exit 1]), none⟩)) ∧
      fork_count (handle_timeout cur st cmd now pid exec_ok).trace = 1 ∧
      (pid ≠ 0 →
        timer_delays (handle_timeout cur st cmd now pid exec_ok).trace = [cmd.timeout]) := by
  have hq : Int.tdiv cmd.timeout 1000 = 0 := by
    rw [Int.tdiv_eq_ediv h0 (by decide)]
    omega
  have hd0 : drift st cmd now ≤ 0 := by
    unfold drift
    omega
  have hd : ¬ drift st cmd now > 1 := by omega
  have hs := handle_timeout_execute_summary cur st cmd now pid exec_ok (not_lt.mpr hidle) hd
  refine ⟨⟨hq, hd0, ?_⟩, handle_timeout_execute_cases cur st cmd now pid exec_ok
    (not_lt.mpr hidle) hd, hs.1, fun hpid => (hs.2 hpid).1⟩
  simp [drift, hq]

/-- Claim C9 at a task of 999 ms firing in the very second of the resume, for a
failed fork, a successful fork and the child of a fork whose `execvp` fails. -/
theorem subsecond_interval_always_executes_witness :
    handle_timeout .LOG_DEBUG ⟨true, true, 3, 7⟩ ⟨"echo hi", 999, 0⟩ 7 (-1) true =
        ⟨[Event.fork, Event.log .LOG_ERROR .fork_failed, Event.timer_update 0 999],
          some 0⟩ ∧
      handle_timeout .LOG_DEBUG ⟨true, true, 3, 7⟩ ⟨"echo hi", 999, 0⟩ 7 41 true =
        ⟨[Event.fork, Event.log .LOG_DEBUG (.spawned "echo hi"), Event.waitpid 41,
          Event.timer_update 0 999], some 0⟩ ∧
      handle_timeout .LOG_DEBUG ⟨true, true, 3, 7⟩ ⟨"echo hi", 999, 0⟩ 7 0 false =
        ⟨[Event.fork, Event.execvp "sh" ["sh", "-c", "echo hi"], Event.exit 1], none⟩ :=
  ⟨(subsecond_interval_always_executes .LOG_DEBUG ⟨true, true, 3, 7⟩ ⟨"echo hi", 999, 0⟩
      7 (-1) true (by decide) (by decide) (by decide) (by decide)).2.1.1 (by decide),
    (subsecond_interval_always_executes .LOG_DEBUG ⟨true, true, 3, 7⟩ ⟨"echo hi", 999, 0⟩
      7 41 true (by decide) (by decide) (by decide) (by decide)).2.1.2.1 (by decide),
    (subsecond_interval_always_executes .LOG_DEBUG ⟨true, true, 3, 7⟩ ⟨"echo hi", 999, 0⟩
      7 0 false (by decide) (by decide) (by decide) (by decide)).2.1.2.2 rfl⟩

/-- Claim C10: for an interval `0 ≤ timeout ≤ INT_MAX` and a clock reading
`now ≥ last_resumed`, every timer update made by `handle_timeout`, on any
branch, has a delay between 0 and `timeout`, hence at most `INT_MAX`, and a
positive one exactly when `timeout > 0`; in the delay branch the delay is a
multiple of 1000 and at least 2000; and in the process that called `fork`
there is exactly one timer update. -/
theorem timer_delay_bounds (cur : log_level) (st : rawe_state)
    (cmd : rawe_timeout_cmd) (now pid : Int) (exec_ok : Bool)
    (h0 : 0 ≤ cmd.timeout) (h1 : cmd.timeout ≤ INT_MAX)
    (hnow : now ≥ st.last_resumed) :
    (∀ delay ∈ timer_delays (handle_timeout cur st cmd now pid exec_ok).trace,
        0 ≤ delay ∧ delay ≤ cmd.timeout ∧ delay ≤ INT_MAX ∧
        (0 < delay ↔ 0 < cmd.timeout) ∧
        (st.last_idle ≤ st.last_resumed → drift st cmd now > 1 →
          1000 ∣ delay ∧ 2000 ≤ delay)) ∧
      (pid ≠ 0 →
        (timer_delays (handle_timeout cur st cmd now pid exec_ok).trace).length = 1) := by
  have hq : Int.tdiv cmd.timeout 1000 = cmd.timeout / 1000 :=
    Int.tdiv_eq_ediv h0 (by decide)
  by_cases hidle : st.last_idle > st.last_resumed
  · rw [handle_timeout_skip cur st cmd now pid exec_ok hidle]
    simp only [timer_delays_append, timer_delays_rawe_log, timer_delays,
      List.nil_append, List.mem_singleton, List.length_singleton, forall_eq,
      implies_true, and_true]
    refine ⟨h0, le_refl _, h1, trivial, ?_⟩
    intro h
    omega
  · by_cases hd : drift st cmd now > 1
    · rw [handle_timeout_delay cur st cmd now pid exec_ok hidle hd]
      simp only [timer_delays_append, timer_delays_rawe_log, timer_delays,
        List.nil_append, List.mem_singleton, List.length_singleton, forall_eq,
        implies_true, and_true]
      unfold drift at hd ⊢
      rw [hq] at hd ⊢
      refine ⟨by omega, by omega, by omega, ⟨fun _ => by omega, fun _ => by omega⟩, ?_⟩
      intro _ _
      exact ⟨Dvd.intro_left _ rfl, by omega⟩
    · by_cases hpid : pid = 0
      · subst hpid
        refine ⟨?_, fun h => absurd rfl h⟩
        intro delay hmem
        have : timer_delays (handle_timeout cur st cmd now 0 exec_ok).trace = [] := by
          unfold handle_timeout
          rw [if_neg hidle]
          simp only [if_neg hd]
          have hr : (cmd_exec cur 0 exec_ok cmd.cmd).ret = none := by
            simp [cmd_exec]
          rw [hr]
          exact timer_delays_cmd_exec cur 0 exec_ok cmd.cmd
        rw [this] at hmem
        cases hmem
      · rw [handle_timeout_execute cur st cmd now pid exec_ok hidle hd hpid]
        simp only [timer_delays_append, timer_delays_cmd_exec, timer_delays,
          List.nil_append, List.mem_singleton, List.length_singleton, forall_eq,
          implies_true, and_true]
        refine ⟨h0, le_refl _, h1, trivial, ?_⟩
        intro _ h
        exact absurd h hd

/-- Claim C10 at a task of 5000 ms in the delay branch (resumed at 4, firing at 5). -/
theorem timer_delay_bounds_witness :
    (∀ delay ∈ timer_delays
        (handle_timeout .LOG_INFO ⟨true, true, 1, 4⟩ ⟨"echo hi", 5000, 0⟩ 5 41 true).trace,
        0 ≤ delay ∧ delay ≤ (⟨"echo hi", 5000, 0⟩ : rawe_timeout_cmd).timeout ∧
        delay ≤ INT_MAX ∧
        (0 < delay ↔ 0 < (⟨"echo hi", 5000, 0⟩ : rawe_timeout_cmd).timeout) ∧
        ((⟨true, true, 1, 4⟩ : rawe_state).last_idle ≤
            (⟨true, true, 1, 4⟩ : rawe_state).last_resumed →
          drift ⟨true, true, 1, 4⟩ ⟨"echo hi", 5000, 0⟩ 5 > 1 →
          1000 ∣ delay ∧ 2000 ≤ delay)) ∧
      ((41 : Int) ≠ 0 →
        (timer_delays
          (handle_timeout .LOG_INFO ⟨true, true, 1, 4⟩ ⟨"echo hi", 5000, 0⟩ 5 41 true).trace).length
            = 1) :=
  timer_delay_bounds .LOG_INFO ⟨true, true, 1, 4⟩ ⟨"echo hi", 5000, 0⟩ 5 41 true
    (by decide) (by decide) (by decide)

/-! ## The idle test after a sequence of notifications -/

theorem run_calls_cons (cur : log_level) (st : rawe_state) (c : IdleCall)
    (cs : List IdleCall) :
    run_calls cur st (c :: cs) = run_calls cur (apply_call cur st c) cs := rfl

/-- The idle test after a sequence of notifications, from any state whose two
timestamps are at most `b`, the readings not decreasing from `b` on. -/
theorem is_idle_run_calls (cur : log_level) (calls : List IdleCall) :
    ∀ (st : rawe_state) (b : Int), st.last_idle ≤ b → st.last_resumed ≤ b →
      List.Chain (· ≤ ·) b (calls.map IdleCall.reading) →
      (is_idle (run_calls cur st calls) = true ↔
        (calls = [] ∧ is_idle st = true) ∨
          ∃ t, calls.getLast? = some (.idle t) ∧
            (run_calls cur st calls).last_resumed < t) := by
  induction calls with
  | nil =>
    intro st b _ _ _
    simp [run_calls]
  | cons c cs ih =>
    intro st b hi hr hch
    rw [List.map_cons, List.chain_cons] at hch
    obtain ⟨hbc, hch⟩ := hch
    have hi2 : (apply_call cur st c).last_idle ≤ c.reading := by
      cases c
      all_goals simp [apply_call, handle_idle, handle_resumed, IdleCall.reading] at hbc ⊢
      all_goals omega
    have hr2 : (apply_call cur st c).last_resumed ≤ c.reading := by
      cases c
      all_goals simp [apply_call, handle_idle, handle_resumed, IdleCall.reading] at hbc ⊢
      all_goals omega
    rw [run_calls_cons, ih (apply_call cur st c) c.reading hi2 hr2 hch]
    cases cs with
    | nil =>
      cases c with
      | idle now =>
        simp [run_calls, apply_call, handle_idle, is_idle]
      | resumed now =>
        simp only [IdleCall.reading] at hbc
        simp [run_calls, apply_call, handle_resumed, is_idle]
        omega
    | cons d ds =>
      simp [List.getLast?_cons_cons]

theorem getLast?_cons_getD (a d : Int) (l : List Int) :
    ((a :: l).getLast?).getD d = (l.getLast?).getD a := by
  cases l with
  | nil => rfl
  | cons b l =>
    rw [List.getLast?_cons_cons]
    cases h : (b :: l).getLast? with
    | none => simp at h
    | some x => rfl

/-- The field `last_resumed` after a sequence of notifications is the reading
of its most recent `handle_resumed` call, or the field before the sequence. -/
theorem last_resumed_run_calls (cur : log_level) (calls : List IdleCall) :
    ∀ st : rawe_state,
      (run_calls cur st calls).last_resumed = last_resume_reading st.last_resumed calls := by
  induction calls with
  | nil =>
    intro st
    rfl
  | cons c cs ih =>
    intro st
    rw [run_calls_cons, ih (apply_call cur st c)]
    cases c with
    | idle now =>
      simp [last_resume_reading, apply_call, handle_idle]
    | resumed now =>
      simp only [last_resume_reading, apply_call, handle_resumed, List.filterMap_cons]
      rw [getLast?_cons_getD]

/-- Claim C5, as worded, fails: `handle_idle` called in the same clock second
as the startup leaves `last_idle = last_resumed`, so the idle test is false
although the sequence is non-empty and its last call was `handle_idle`. -/
theorem idle_test_same_second_counterexample :
    readings_nondecreasing 0 [IdleCall.idle 0] ∧
      last_call_is_idle [IdleCall.idle 0] = true ∧
      is_idle (run_calls .LOG_INFO (main_init 0) [IdleCall.idle 0]) = false := by
  refine ⟨?_, by decide, by decide⟩
  simp [readings_nondecreasing, IdleCall.reading]

/-- Claim C5, amended: from a state with `last_idle = last_resumed = t0`, after
any finite sequence of `handle_idle` / `handle_resumed` calls whose clock
readings do not decrease from `t0` on, the idle test `last_idle > last_resumed`
is true if and only if the sequence is non-empty, its last call was
`handle_idle`, and the reading of that call is strictly greater than the
reading of the most recent `handle_resumed` call of the sequence, or than `t0`
when the sequence has none. -/
theorem idle_test_after_calls (cur : log_level) (st0 : rawe_state) (t0 : Int)
    (calls : List IdleCall) (hli : st0.last_idle = t0) (hlr : st0.last_resumed = t0)
    (hmono : readings_nondecreasing t0 calls) :
    is_idle (run_calls cur st0 calls) = true ↔
      ∃ t, calls.getLast? = some (IdleCall.idle t) ∧
        last_resume_reading t0 calls < t := by
  rw [is_idle_run_calls cur calls st0 t0 (le_of_eq hli) (le_of_eq hlr) hmono,
    last_resumed_run_calls cur calls st0, hlr]
  have h0 : is_idle st0 = false := by
    simp [is_idle, hli, hlr]
  simp [h0]

/-- Claim C5, amended, after a startup at 0: the calls idle at 3, resumed at 5,
idle at 9 leave the state idle, since 9 is later than the resume at 5. -/
theorem idle_test_after_calls_witness :
    is_idle (run_calls .LOG_INFO (main_init 0)
        [IdleCall.idle 3, IdleCall.resumed 5, IdleCall.idle 9]) = true ↔
      ∃ t, [IdleCall.idle 3, IdleCall.resumed 5, IdleCall.idle 9].getLast? =
          some (IdleCall.idle t) ∧
        last_resume_reading 0 [IdleCall.idle 3, IdleCall.resumed 5, IdleCall.idle 9] < t :=
  idle_test_after_calls .LOG_INFO (main_init 0) 0
    [IdleCall.idle 3, IdleCall.resumed 5, IdleCall.idle 9] rfl rfl
    (by simp [readings_nondecreasing, IdleCall.reading])

/-! ## Whole-second clock readings -/

/-- The state in which the timer fires in the third scenario. -/
theorem scenario_state_drift (T : Int) (line : String) (timer : Nat) :
    drift ⟨true, true, time_at (T + 1000), time_at (T + 4500)⟩ ⟨line, 5000, timer⟩
      (time_at (T + 5000)) = if T % 1000 < 500 then 4 else 5 := by
  have h5 : Int.tdiv 5000 1000 = 5 := by decide
  simp only [drift, time_at, h5]
  split <;> omega

/-- With an interval of 5000 ms, no call of `handle_timeout` re-arms the timer
for 4500 ms. -/
theorem no_rearm_for_4500 (cur : log_level) (st : rawe_state) (line : String)
    (timer : Nat) (now pid : Int) (exec_ok : Bool) :
    (4500 : Int) ∉
      timer_delays (handle_timeout cur st ⟨line, 5000, timer⟩ now pid exec_ok).trace := by
  by_cases hidle : st.last_idle > st.last_resumed
  · rw [handle_timeout_skip cur st _ now pid exec_ok hidle]
    simp [timer_delays_append, timer_delays_rawe_log, timer_delays]
  · by_cases hd : drift st ⟨line, 5000, timer⟩ now > 1
    · rw [handle_timeout_delay cur st _ now pid exec_ok hidle hd]
      simp only [timer_delays_append, timer_delays_rawe_log, timer_delays,
        List.nil_append, List.mem_singleton]
      omega
    · unfold handle_timeout
      rw [if_neg hidle]
      simp only [if_neg hd]
      split
      · rw [timer_delays_cmd_exec]
        simp
      · simp [timer_delays_append, timer_delays_cmd_exec, timer_delays]

/-- Claim C6, as worded, fails: in the third scenario, started on a whole
second, the clock readings are 0, 1, 4 and 5 seconds, the elapsed time since
the resume is read as 1 s, not 0.5 s, and the timer is re-armed for 4000 ms,
not 4500 ms; with an interval of 5000 ms no state and no clock reading give a
re-arm for 4500 ms. -/
theorem fractional_elapsed_counterexample :
    (time_at 0 = 0 ∧ time_at 1000 = 1 ∧ time_at 4500 = 4 ∧ time_at 5000 = 5) ∧
      fork_count
        (scenario_resume_before_firing .LOG_INFO 0 "echo hi" 0 41 true).trace = 0 ∧
      timer_delays
        (scenario_resume_before_firing .LOG_INFO 0 "echo hi" 0 41 true).trace = [4000] ∧
      ¬ ∃ (cur : log_level) (st : rawe_state) (now pid : Int) (exec_ok : Bool),
        (4500 : Int) ∈
          timer_delays (handle_timeout cur st ⟨"echo hi", 5000, 0⟩ now pid exec_ok).trace := by
  refine ⟨by decide, by decide, by decide, ?_⟩
  rintro ⟨cur, st, now, pid, exec_ok, h⟩
  exact no_rearm_for_4500 cur st "echo hi" 0 now pid exec_ok h

/-- Claim C6, amended: the time elapsed since the last resume is the
difference of two whole-second readings of `time(NULL)`.  In the third
scenario (interval 5000 ms, idle 1000 ms, resume 4500 ms and firing 5000 ms
after a startup at wall-clock time `T` ms) `handle_timeout` skips the command
and re-arms the timer for 4000 ms when the startup falls in the first half of
a clock second, and for 5000 ms when it falls in the second half. -/
theorem scenario_rearms_whole_seconds (cur : log_level) (T : Int) (line : String)
    (timer : Nat) (pid : Int) (exec_ok : Bool) :
    (scenario_resume_before_firing cur T line timer pid exec_ok).trace =
        rawe_log cur .LOG_DEBUG
            (.delay_command line (if T % 1000 < 500 then 4 else 5)) ++
          [Event.timer_update timer (if T % 1000 < 500 then 4000 else 5000)] ∧
      fork_count (scenario_resume_before_firing cur T line timer pid exec_ok).trace = 0 ∧
      timer_delays (scenario_resume_before_firing cur T line timer pid exec_ok).trace =
        [if T % 1000 < 500 then 4000 else 5000] ∧
      (scenario_resume_before_firing cur T line timer pid exec_ok).ret = some 0 := by
  have hst : scenario_resume_before_firing cur T line timer pid exec_ok =
      handle_timeout cur ⟨true, true, time_at (T + 1000), time_at (T + 4500)⟩
        ⟨line, 5000, timer⟩ (time_at (T + 5000)) pid exec_ok := rfl
  have hdr := scenario_state_drift T line timer
  have hidle : ¬ (⟨true, true, time_at (T + 1000), time_at (T + 4500)⟩ : rawe_state).last_idle >
      (⟨true, true, time_at (T + 1000), time_at (T + 4500)⟩ : rawe_state).last_resumed := by
    simp only [time_at]
    omega
  have hd : drift ⟨true, true, time_at (T + 1000), time_at (T + 4500)⟩ ⟨line, 5000, timer⟩
      (time_at (T + 5000)) > 1 := by
    rw [hdr]
    split <;> decide
  rw [hst, handle_timeout_delay cur _ _ _ pid exec_ok hidle hd, hdr]
  have hms : (if T % 1000 < 500 then (4 : Int) else 5) * 1000 =
      if T % 1000 < 500 then 4000 else 5000 := by
    split <;> rfl
  rw [hms]
  refine ⟨rfl, ?_, ?_, rfl⟩
  · rw [fork_count_append, fork_count_rawe_log, fork_count_timer_update]
  · simp [timer_delays_append, timer_delays_rawe_log, timer_delays]

/-! ## Reading the interval -/

theorem isDigit_bounds (c : Char) (h : c.isDigit = true) :
    48 ≤ c.toNat ∧ c.toNat ≤ 57 := by
  simp only [Char.isDigit, Bool.and_eq_true, decide_eq_true_eq] at h
  exact ⟨h.1, h.2⟩

theorem isspace_of_isDigit (c : Char) (h : c.isDigit = true) : isspace c = false := by
  have hb := isDigit_bounds c h
  simp only [isspace, Bool.or_eq_false_iff, Bool.and_eq_false_iff, decide_eq_false_iff_not]
  omega

theorem ne_sign_of_isDigit (c : Char) (h : c.isDigit = true) : c ≠ '-' ∧ c ≠ '+' := by
  have hb := isDigit_bounds c h
  constructor
  · rintro rfl
    revert hb
    decide
  · rintro rfl
    revert hb
    decide

/-- On a non-empty run of digits `strtoul` consumes everything and returns the
number written, as long as it fits `unsigned long`. -/
theorem strtoul_digits (ds : List Char) (hne : ds ≠ [])
    (hd : ∀ c ∈ ds, c.isDigit = true) (hle : digits_value ds ≤ ULONG_MAX) :
    strtoul ds = (digits_value ds, []) := by
  obtain ⟨c, cs, rfl⟩ := List.exists_cons_of_ne_nil hne
  have hc : c.isDigit = true := hd c (List.mem_cons_self c cs)
  have hsp : (c :: cs).dropWhile isspace = c :: cs := by
    rw [List.dropWhile_cons, isspace_of_isDigit c hc]
    rfl
  have htake : (c :: cs).takeWhile Char.isDigit = c :: cs :=
    List.takeWhile_eq_self_iff.mpr hd
  have hdrop : (c :: cs).dropWhile Char.isDigit = [] :=
    List.dropWhile_eq_nil_iff.mpr hd
  have hs := ne_sign_of_isDigit c hc
  unfold strtoul
  simp only [hsp, List.head?_cons, Option.some.injEq, hs.1, hs.2, or_self, if_false,
    htake, hdrop, decide_False]
  simp [not_lt.mpr hle]

/-- A value returned by `parse_timeout` lies in `[0, INT_MAX]`, and nothing was
logged on the way. -/
theorem parse_timeout_ret_range (cur : log_level) (st : rawe_state) (value : String)
    (n : Int) (h : (parse_timeout cur st value).ret = some n) :
    0 ≤ n ∧ n ≤ INT_MAX ∧ (parse_timeout cur st value).trace = [] := by
  unfold parse_timeout at h ⊢
  simp only at h ⊢
  split at h
  · cases h
  · rename_i hc
    rw [if_neg hc]
    simp only [Option.some.injEq] at h
    subst h
    refine ⟨Int.natCast_nonneg _, ?_, rfl⟩
    have := not_or.mp hc
    omega

/-- A non-empty run of digits writing a number of `[0, INT_MAX]` is accepted,
and that number is returned. -/
theorem parse_timeout_digits (cur : log_level) (st : rawe_state) (ds : List Char)
    (hne : ds ≠ []) (hd : ∀ c ∈ ds, c.isDigit = true)
    (hle : (digits_value ds : Int) ≤ INT_MAX) :
    parse_timeout cur st (String.mk ds) = ⟨[], some (digits_value ds : Int)⟩ := by
  have hu : digits_value ds ≤ ULONG_MAX := by
    have : (digits_value ds : Int) ≤ (ULONG_MAX : Int) :=
      le_trans hle (by decide)
    exact Int.ofNat_le.mp this
  unfold parse_timeout
  simp only [String.toList, strtoul_digits ds hne hd hu]
  simp [not_lt.mpr hle]

/-- A task registered by `parse_timeout_cmd` has an interval in `[0, INT_MAX]`,
its timer was armed for that interval, and three arguments were consumed. -/
theorem parse_timeout_cmd_registers (cur : log_level) (st : rawe_state) (timer : Nat)
    (argv : List String) (k : Int) (task : rawe_timeout_cmd)
    (h : (parse_timeout_cmd cur st timer argv).ret = some (k, task)) :
    k = 3 ∧ 0 ≤ task.timeout ∧ task.timeout ≤ INT_MAX ∧ task.timer = timer ∧
      timer_delays (parse_timeout_cmd cur st timer argv).trace = [task.timeout] := by
  unfold parse_timeout_cmd at h ⊢
  split at h
  · rename_i a0 a1 a2 rest
    simp only at h ⊢
    cases hr : (parse_timeout cur st a1).ret with
    | none =>
      rw [hr] at h
      cases h
    | some t =>
      rw [hr] at h
      simp only [Option.some.injEq, Prod.mk.injEq] at h
      obtain ⟨hk, ht⟩ := h
      subst hk
      subst ht
      have hrng := parse_timeout_ret_range cur st a1 t hr
      refine ⟨rfl, hrng.1, hrng.2.1, rfl, ?_⟩
      simp [hrng.2.2, timer_delays, timer_delays_append, timer_delays_rawe_log]
  · cases h

/-- Claim C7 fails on the code: `parse_timeout` returns 0 for the empty string,
which writes no integer, and returns 1 for `-18446744073709551615`, a negative
number; in both cases nothing is logged and the process goes on. -/
theorem parse_timeout_accepts_non_integers :
    (∀ (cur : log_level) (st : rawe_state),
        parse_timeout cur st "" = ⟨[], some 0⟩) ∧
      (∀ (cur : log_level) (st : rawe_state),
        parse_timeout cur st "-18446744073709551615" = ⟨[], some 1⟩) := by
  constructor
  · intro cur st
    simp [parse_timeout, strtoul, INT_MAX]
  · intro cur st
    have h : strtoul "-18446744073709551615".toList = (1, []) := by decide
    simp only [parse_timeout, h]
    simp [INT_MAX]

end Rawe
